import Mathlib

/-!
Shallow embedding of the EchoMate pipeline modules
(modules/memory/context.py, modules/memory/vectordb.py,
modules/speech/listener.py, modules/speech/speaker.py,
modules/ai/thinking.py, modules/utils/helpers.py)
together with proofs about the embedded operations.

Conventions:
* Python `time.time()` readings are modelled as natural numbers; each
  syntactic call site of `time.time()` receives its own reading, in call
  order, so two consecutive readings may differ.
* Python exceptions are modelled with `Except String`: a function that the
  source does not guard with try/except propagates the error value.
* Python sets are modelled as duplicate-free insertion-ordered lists.
-/

/-- A conversation turn as stored in ContextManager.current_context
  in the recent_messages list (context.py, add_message): id, text,
  speaker and the time.time() reading taken at insertion. -/
structure Message where
  id : String
  text : String
  speaker : String
  timestamp : Nat
deriving Repr, DecidableEq

/-- An active reference entry (context.py, add_reference): id, url and
  the time.time() reading taken at insertion. -/
structure Reference where
  id : String
  url : String
  timestamp : Nat
deriving Repr, DecidableEq

/-- The in-memory state of ContextManager: the current_context dictionary
  of context.py (participants set, current_topic, recent_messages,
  active_references). The VectorStorage handle is kept outside this
  structure: operations that touch it take its responses as arguments. -/
structure ContextState where
  participants : List String
  currentTopic : Option String
  recentMessages : List Message
  activeReferences : List Reference
deriving Repr, DecidableEq

/-- ContextManager.__init__ / the literal dictionary assigned there:
  empty participants set, no topic, empty recent_messages and
  active_references. -/
def initContext : ContextState :=
  { participants := [], currentTopic := none,
    recentMessages := [], activeReferences := [] }

/-- self.max_recent_messages, set to 10 in ContextManager.__init__. -/
def max_recent_messages : Nat := 10

/-- Python set.add on the participants set, modelled on an
  insertion-ordered duplicate-free list. -/
def addParticipant (p : String) (ps : List String) : List String :=
  if p ∈ ps then ps else ps ++ [p]

/-- One call of ContextManager.add_message (context.py lines 20-47):
  the message id returned by vector_storage.add_conversation is `msgId`
  and the time.time() reading is `now`.  The speaker is added to the
  participants set, the new message is appended to recent_messages, and
  if the length then exceeds max_recent_messages the oldest entry is
  popped from the front. -/
def add_message (s : ContextState) (text speaker msgId : String) (now : Nat) :
    ContextState :=
  let msgs := s.recentMessages ++ [⟨msgId, text, speaker, now⟩]
  { s with
    participants := addParticipant speaker s.participants
    recentMessages :=
      if max_recent_messages < msgs.length then msgs.tail else msgs }

/-- One call of ContextManager.add_reference (context.py lines 49-70):
  the reference id returned by vector_storage.add_reference is `refId`
  and the time.time() reading is `now`. -/
def add_reference (s : ContextState) (url refId : String) (now : Nat) :
    ContextState :=
  { s with activeReferences := s.activeReferences ++ [⟨refId, url, now⟩] }

/-- ContextManager.update_topic (context.py lines 97-102). -/
def update_topic (s : ContextState) (topic : String) : ContextState :=
  { s with currentTopic := some topic }

/-- ContextManager.clear_context (context.py lines 104-111): the
  current_context dictionary is replaced by the same literal used in
  __init__. -/
def clear_context (_s : ContextState) : ContextState := initContext

/-- ContextManager.get_active_references (context.py lines 128-133). -/
def get_active_references (s : ContextState) : List Reference :=
  s.activeReferences

/-- The record returned by ContextManager.get_conversation_summary. -/
structure Summary where
  participants : List String
  topic : Option String
  message_count : Nat
  reference_count : Nat
  duration : Int
deriving Repr, DecidableEq

/-- ContextManager.get_conversation_summary (context.py lines 113-126).
  The duration field is computed in the source as
  time.time() - (recent_messages[0].timestamp if recent_messages else
  time.time()): the left operand is the first clock reading `t1`; when
  the window is empty the fallback is a second, later clock reading
  `t2`. -/
def get_conversation_summary (s : ContextState) (t1 t2 : Nat) : Summary :=
  { participants := s.participants
    topic := s.currentTopic
    message_count := s.recentMessages.length
    reference_count := s.activeReferences.length
    duration := (t1 : Int) -
      (match s.recentMessages with
       | m :: _ => (m.timestamp : Int)
       | [] => (t2 : Int)) }

/-- The arguments of one add_message call, together with the id produced
  by the storage layer and the time.time() reading of the call. -/
structure AddInput where
  text : String
  speaker : String
  msgId : String
  now : Nat
deriving Repr, DecidableEq

/-- The Message record that add_message appends for a given input. -/
def msgOf (i : AddInput) : Message :=
  ⟨i.msgId, i.text, i.speaker, i.now⟩

/-- Run a sequence of add_message calls from a given state. -/
def runAdds (s : ContextState) : List AddInput → ContextState
  | [] => s
  | i :: is => runAdds (add_message s i.text i.speaker i.msgId i.now) is

/-- The recent_messages update performed by one add_message call,
  as a function of the window alone. -/
def windowStep (l : List Message) (m : Message) : List Message :=
  if max_recent_messages < (l ++ [m]).length then (l ++ [m]).tail
  else l ++ [m]

theorem add_message_recent (s : ContextState) (text speaker msgId : String)
    (now : Nat) :
    (add_message s text speaker msgId now).recentMessages =
      windowStep s.recentMessages ⟨msgId, text, speaker, now⟩ := rfl

theorem runAdds_recent (inputs : List AddInput) :
    ∀ s : ContextState,
      (runAdds s inputs).recentMessages =
        List.foldl windowStep s.recentMessages (inputs.map msgOf) := by
  induction inputs with
  | nil => intro s; rfl
  | cons i is ih =>
      intro s
      simp only [runAdds, List.map_cons, List.foldl_cons]
      rw [ih, add_message_recent]
      rfl

theorem foldl_windowStep (ms : List Message) :
    ∀ l : List Message, l.length ≤ 10 →
      List.foldl windowStep l ms =
        (l ++ ms).drop (l.length + ms.length - 10) := by
  induction ms with
  | nil =>
      intro l hl
      simp only [List.foldl_nil, List.append_nil, List.length_nil]
      have h0 : l.length + 0 - 10 = 0 := by omega
      rw [h0, List.drop_zero]
  | cons m ms ih =>
      intro l hl
      simp only [List.foldl_cons]
      by_cases hlen : l.length < 10
      · have hcond : ¬ max_recent_messages < (l ++ [m]).length := by
          simp only [max_recent_messages, List.length_append,
            List.length_cons, List.length_nil]
          omega
        have hstep : windowStep l m = l ++ [m] := by
          unfold windowStep
          rw [if_neg hcond]
        rw [hstep, ih (l ++ [m]) (by
          simp only [List.length_append, List.length_cons, List.length_nil]
          omega)]
        have harith : (l ++ [m]).length + ms.length - 10 =
            l.length + (m :: ms).length - 10 := by
          simp only [List.length_append, List.length_cons, List.length_nil]
          omega
        rw [harith, List.append_assoc]
        rfl
      · have hlen10 : l.length = 10 := by omega
        obtain ⟨a, t, rfl⟩ : ∃ a t, l = a :: t := by
          cases l with
          | nil => simp at hlen10
          | cons a t => exact ⟨a, t, rfl⟩
        have ht : t.length = 9 := by
          simp only [List.length_cons] at hlen10; omega
        have hcond : max_recent_messages < ((a :: t) ++ [m]).length := by
          simp only [max_recent_messages, List.length_append,
            List.length_cons, List.length_nil]
          omega
        have hstep : windowStep (a :: t) m = t ++ [m] := by
          unfold windowStep
          rw [if_pos hcond]
          rfl
        rw [hstep, ih (t ++ [m]) (by
          simp only [List.length_append, List.length_cons, List.length_nil]
          omega)]
        have harith : (t ++ [m]).length + ms.length - 10 =
            ms.length := by
          simp only [List.length_append, List.length_cons, List.length_nil]
          omega
        have harith2 : (a :: t).length + (m :: ms).length - 10 =
            ms.length + 1 := by
          simp only [List.length_cons]
          omega
        rw [harith, harith2, List.append_assoc]
        simp only [List.cons_append, List.drop_succ_cons, List.nil_append,
          List.singleton_append]

/-- C2: for every sequence of add_message calls on a fresh ContextManager,
  the recency window has length min(k, 10) (in particular never more than
  10) and holds exactly the min(k, 10) most recently added turns in
  insertion order, the oldest evicted first. -/
theorem recency_window_fifo (inputs : List AddInput) :
    ((runAdds initContext inputs).recentMessages).length =
        min inputs.length 10 ∧
    (runAdds initContext inputs).recentMessages =
        (inputs.map msgOf).drop (inputs.length - 10) := by
  have h := runAdds_recent inputs initContext
  have h2 := foldl_windowStep (inputs.map msgOf) [] (by simp)
  simp only [List.nil_append, List.length_nil, List.length_map,
    Nat.zero_add] at h2
  have hinit : initContext.recentMessages = [] := rfl
  rw [h, hinit, h2]
  refine ⟨?_, rfl⟩
  rw [List.length_drop, List.length_map]
  omega

/-- C9: after k add_message calls on a fresh ContextManager,
  get_conversation_summary reports message_count = min(k, 10): the count
  reflects only the turns in the recency window, so it stops growing once
  k exceeds the window size. -/
theorem summary_message_count_window (inputs : List AddInput) (t1 t2 : Nat) :
    (get_conversation_summary (runAdds initContext inputs) t1 t2).message_count
      = min inputs.length 10 := by
  have h := runAdds_recent inputs initContext
  have h2 := foldl_windowStep (inputs.map msgOf) [] (by simp)
  simp only [List.nil_append, List.length_nil, List.length_map,
    Nat.zero_add] at h2
  have hinit : initContext.recentMessages = [] := rfl
  show (runAdds initContext inputs).recentMessages.length = min inputs.length 10
  rw [h, hinit, h2, List.length_drop, List.length_map]
  omega

/-- C7 counterexample: on an empty context the duration field is the
  difference of two distinct time.time() readings; with readings 0 and 5
  it is -5, not 0 (message_count and reference_count are 0 as claimed). -/
theorem summary_empty_duration_cex :
    (get_conversation_summary initContext 0 5).message_count = 0 ∧
    (get_conversation_summary initContext 0 5).reference_count = 0 ∧
    (get_conversation_summary initContext 0 5).duration ≠ 0 := by
  refine ⟨rfl, rfl, ?_⟩
  decide

/-- C7 amended: on an empty context get_conversation_summary returns
  message_count = 0, reference_count = 0, empty participants, no topic,
  and duration equal to the first time.time() reading minus the second
  (so 0 exactly when the two consecutive readings coincide, and ≤ 0 for
  a monotone clock). -/
theorem summary_empty (t1 t2 : Nat) :
    get_conversation_summary initContext t1 t2 =
      { participants := [], topic := none, message_count := 0,
        reference_count := 0, duration := (t1 : Int) - (t2 : Int) } := rfl

/-- A metadata dictionary attached to a stored document, modelled as a
  list of key/value pairs. -/
abbrev Metadata := List (String × String)

/-- The slice of a chromadb collection.query response used by
  VectorStorage: the parallel lists documents[0], metadatas[0], ids[0]
  for the single query text. -/
structure QueryResult where
  documents : List String
  metadatas : List Metadata
  ids : List String
deriving Repr, DecidableEq

/-- One formatted entry of VectorStorage.search_conversations. -/
structure ConvHit where
  text : String
  metadata : Metadata
  id : String
deriving Repr, DecidableEq

/-- One formatted entry of VectorStorage.search_references. -/
structure RefHit where
  content : String
  metadata : Metadata
  id : String
deriving Repr, DecidableEq

/-- The formatting loop of search_conversations (vectordb.py lines
  107-116): for i in range(len(documents)) it pairs documents[i],
  metadatas[i], ids[i].  The three response lists are parallel (equal
  length) in a chromadb response, so the loop is the pointwise zip. -/
def formatConvHits (r : QueryResult) : List ConvHit :=
  (r.documents.zip (r.metadatas.zip r.ids)).map
    (fun p => ⟨p.1, p.2.1, p.2.2⟩)

/-- The formatting loop of search_references (vectordb.py lines 131-141). -/
def formatRefHits (r : QueryResult) : List RefHit :=
  (r.documents.zip (r.metadatas.zip r.ids)).map
    (fun p => ⟨p.1, p.2.1, p.2.2⟩)

/-- VectorStorage.search_conversations (vectordb.py lines 93-116).  The
  chromadb call conversation_collection.query is external; its outcome
  (a response, or a raised exception) is the argument `resp`.  The method
  body has no try/except, so a backend exception propagates to the
  caller. -/
def search_conversations (resp : Except String QueryResult) :
    Except String (List ConvHit) := do
  let r ← resp
  return formatConvHits r

/-- VectorStorage.search_references (vectordb.py lines 118-141), same
  shape as search_conversations. -/
def search_references (resp : Except String QueryResult) :
    Except String (List RefHit) := do
  let r ← resp
  return formatRefHits r

/-- The dictionary returned by ContextManager.get_relevant_context. -/
structure ContextSnapshot where
  recent_context : List Message
  relevant_conversations : List ConvHit
  relevant_references : List RefHit
  participants : List String
  current_topic : Option String
deriving Repr, DecidableEq

/-- ContextManager.get_relevant_context (context.py lines 72-95): it
  calls search_conversations and then search_references with no
  exception handling and builds the snapshot dictionary from their
  results and the in-memory state.  The two backend outcomes are the
  arguments `convResp` and `refResp`. -/
def get_relevant_context (s : ContextState)
    (convResp refResp : Except String QueryResult) :
    Except String ContextSnapshot := do
  let convs ← search_conversations convResp
  let refs ← search_references refResp
  return ⟨s.recentMessages, convs, refs, s.participants, s.currentTopic⟩

/-- C1 counterexample: with the conversation-search backend unavailable,
  get_relevant_context raises (propagates the error) instead of
  degrading to a recency-only snapshot: no snapshot is returned. -/
theorem get_relevant_context_raises_cex :
    ¬ ∃ snap, get_relevant_context initContext
        (Except.error "backend unavailable")
        (Except.error "backend unavailable") = Except.ok snap := by
  rintro ⟨snap, h⟩
  have h2 : (Except.error "backend unavailable" :
      Except String ContextSnapshot) = Except.ok snap := h
  exact Except.noConfusion h2

/-- C1 amended: get_relevant_context has no exception handling: if the
  conversation search raises, the same error propagates; if it succeeds
  and the reference search raises, that error propagates; only when both
  searches succeed is the snapshot (recency window, both result lists,
  participants, topic) returned. -/
theorem get_relevant_context_spec (s : ContextState)
    (cr rr : Except String QueryResult) :
    (∀ e, cr = Except.error e →
        get_relevant_context s cr rr = Except.error e) ∧
    (∀ q e, cr = Except.ok q → rr = Except.error e →
        get_relevant_context s cr rr = Except.error e) ∧
    (∀ qc qr, cr = Except.ok qc → rr = Except.ok qr →
        get_relevant_context s cr rr = Except.ok
          ⟨s.recentMessages, formatConvHits qc, formatRefHits qr,
           s.participants, s.currentTopic⟩) := by
  refine ⟨?_, ?_, ?_⟩
  · rintro e rfl; rfl
  · rintro q e rfl rfl; rfl
  · rintro qc qr rfl rfl; rfl

/-- C1 amended, witness at concrete inputs: a failing conversation
  backend makes get_relevant_context return that error. -/
theorem get_relevant_context_spec_witness :
    get_relevant_context initContext (Except.error "down")
        (Except.ok ⟨[], [], []⟩) = Except.error "down" :=
  (get_relevant_context_spec initContext (Except.error "down")
    (Except.ok ⟨[], [], []⟩)).1 "down" rfl

/-- C8: clear_context resets the state to exactly the freshly
  constructed state, so every subsequent read — get_conversation_summary,
  get_active_references, and the in-memory contribution of
  get_relevant_context — returns the same values as on a fresh
  ContextManager over the same store. -/
theorem clear_context_fresh_reads (s : ContextState) (t1 t2 : Nat)
    (cr rr : Except String QueryResult) :
    clear_context s = initContext ∧
    get_conversation_summary (clear_context s) t1 t2 =
      get_conversation_summary initContext t1 t2 ∧
    get_active_references (clear_context s) =
      get_active_references initContext ∧
    get_relevant_context (clear_context s) cr rr =
      get_relevant_context initContext cr rr :=
  ⟨rfl, rfl, rfl, rfl⟩

/-- The outcome of one audio_queue.get(timeout=0.5) attempt inside
  AudioListener.process_audio: a dequeued frame block carrying its
  number of samples, or queue.Empty on timeout. -/
inductive QueueItem where
  | chunk (size : Nat)
  | empty
deriving Repr, DecidableEq

/-- Whether a dequeue outcome contributes to audio_data: the source
  keeps a chunk when it is not None and chunk.size > 0
  (listener.py line 59). -/
def isRealChunk : QueueItem → Bool
  | QueueItem.chunk s => 0 < s
  | QueueItem.empty => false

/-- The number of dequeue attempts of one collection cycle:
  range(int(self.sample_rate * 2 / 1024)) in process_audio
  (listener.py line 54); for the default 16000 Hz this is 31. -/
def collectAttempts (sampleRate : Nat) : Nat := sampleRate * 2 / 1024

/-- The collection loop of one cycle of AudioListener.process_audio
  (listener.py lines 52-62), with the listening flag held set: it makes
  up to `n` dequeue attempts on the stream of outcomes `q`, appending to
  audio_data every chunk with size > 0 and skipping queue.Empty
  timeouts; once the stream is exhausted every remaining attempt times
  out.  Returns the sizes of the collected chunks in order. -/
def collectChunks : Nat → List QueueItem → List Nat
  | 0, _ => []
  | _ + 1, [] => []
  | n + 1, QueueItem.chunk s :: rest =>
      if 0 < s then s :: collectChunks n rest else collectChunks n rest
  | n + 1, QueueItem.empty :: rest => collectChunks n rest

/-- The number of model.transcribe calls made by one cycle of
  process_audio (listener.py lines 64-104): after collection, the frames
  are concatenated, written to a file and transcribed exactly once when
  audio_data is non-empty (the listening flag being held set); when no
  chunk was collected nothing is transcribed. -/
def transcribeCalls (sampleRate : Nat) (q : List QueueItem) : Nat :=
  if collectChunks (collectAttempts sampleRate) q = [] then 0 else 1

theorem collectChunks_eq_nil_iff (q : List QueueItem) :
    ∀ n : Nat, collectChunks n q = [] ↔
      ¬ ∃ i ∈ q.take n, isRealChunk i = true := by
  induction q with
  | nil =>
      intro n
      cases n <;> simp [collectChunks]
  | cons i rest ih =>
      intro n
      cases n with
      | zero => simp [collectChunks]
      | succ n =>
          cases i with
          | chunk s =>
              by_cases hs : 0 < s
              · simp [collectChunks, hs, isRealChunk]
              · simp [collectChunks, hs, isRealChunk, ih n]
          | empty =>
              simp [collectChunks, isRealChunk, ih n]

/-- C4 counterexample: at the default 16000 Hz sample rate, a cycle that
  obtains a single 1024-sample chunk (all other attempts timing out) has
  collected far less than 2 seconds of audio (32000 samples), yet makes
  one transcription call, not zero. -/
theorem transcriber_short_collection_cex :
    (collectChunks (collectAttempts 16000)
        [QueueItem.chunk 1024]).sum = 1024 ∧
    1024 < 16000 * 2 ∧
    transcribeCalls 16000 [QueueItem.chunk 1024] = 1 := by
  refine ⟨?_, by norm_num, ?_⟩ <;> rfl

/-- C4 amended: one collection cycle makes at most one transcription
  call, and makes exactly one iff at least one of its
  (sample_rate·2)/1024 dequeue attempts yields a chunk with size > 0 —
  regardless of the total duration collected.  In particular frames
  summing to less than the 2-second target still trigger a call, and a
  full cycle (every attempt yielding a 1024-sample block, 31744 samples
  at 16 kHz, slightly under 2 s) triggers exactly one call. -/
theorem transcriber_calls_spec (q : List QueueItem) :
    transcribeCalls 16000 q ≤ 1 ∧
    (transcribeCalls 16000 q = 1 ↔
      ∃ i ∈ q.take (collectAttempts 16000), isRealChunk i = true) := by
  constructor
  · unfold transcribeCalls
    split <;> omega
  · unfold transcribeCalls
    by_cases h : collectChunks (collectAttempts 16000) q = []
    · rw [if_pos h]
      have hne := (collectChunks_eq_nil_iff q (collectAttempts 16000)).mp h
      exact ⟨fun h01 => absurd h01 (by omega), fun hex => absurd hex hne⟩
    · rw [if_neg h]
      refine ⟨fun _ => ?_, fun _ => rfl⟩
      by_contra hn
      exact h ((collectChunks_eq_nil_iff q (collectAttempts 16000)).mpr hn)

/-- An audio frame block delivered to the sounddevice callback and
  copied onto the queue (indata.copy()): its sample values. -/
abbrev Frame := List Int

/-- AudioListener.audio_callback (listener.py lines 33-44): when the
  listening flag is set, the frame is put on audio_queue — an unbounded
  queue.Queue constructed with no maxsize (listener.py line 27) — so put
  never blocks and never drops; when the flag is clear the frame is
  ignored.  A device-reported input overflow status is only printed. -/
def audio_callback (listening : Bool) (q : List Frame) (frame : Frame) :
    List Frame :=
  if listening then q ++ [frame] else q

/-- A sequence of device callback invocations starting from queue
  contents `q`. -/
def runCallbacks (listening : Bool) : List Frame → List Frame → List Frame
  | q, [] => q
  | q, f :: fs => runCallbacks listening (audio_callback listening q f) fs

theorem runCallbacks_length (fs : List Frame) :
    ∀ q : List Frame,
      (runCallbacks true q fs).length = q.length + fs.length ∧
      runCallbacks false q fs = q := by
  induction fs with
  | nil => intro q; exact ⟨by simp [runCallbacks], rfl⟩
  | cons f fs ih =>
      intro q
      constructor
      · show (runCallbacks true (audio_callback true q f) fs).length =
            q.length + (f :: fs).length
        rw [(ih (audio_callback true q f)).1]
        have hlen : (audio_callback true q f).length = q.length + 1 := by
          simp [audio_callback]
        rw [hlen, List.length_cons]
        omega
      · show runCallbacks false (audio_callback false q f) fs = q
        have hcb : audio_callback false q f = q := by
          simp [audio_callback]
        rw [hcb, (ih q).2]

/-- C6 counterexample: the frame queue fed by audio_callback is not
  bounded by any fixed bound: for every candidate bound B, a sequence of
  B+1 callback invocations while listening leaves B+1 frames queued, and
  no frame is ever dropped. -/
theorem audio_queue_unbounded_cex :
    ¬ ∃ B : Nat, ∀ fs : List Frame,
        (runCallbacks true [] fs).length ≤ B := by
  rintro ⟨B, hB⟩
  have h := hB (List.replicate (B + 1) [0])
  rw [(runCallbacks_length (List.replicate (B + 1) [0]) []).1] at h
  simp only [List.length_nil, List.length_replicate, Nat.zero_add] at h
  omega

/-- C6 amended: the audio queue is unbounded and the callback never
  blocks and never drops: after any sequence of callback invocations
  with the listening flag set, the queue holds its previous contents
  plus every delivered frame in arrival order (length grows by exactly
  the number of invocations); with the flag clear the queue is
  untouched.  Device-reported input overflow is only logged. -/
theorem audio_callback_queue_spec (fs : List Frame) (q : List Frame) :
    runCallbacks true q fs = q ++ fs ∧
    (runCallbacks true q fs).length = q.length + fs.length ∧
    runCallbacks false q fs = q := by
  refine ⟨?_, (runCallbacks_length fs q).1, (runCallbacks_length fs q).2⟩
  induction fs generalizing q with
  | nil => simp [runCallbacks]
  | cons f fs ih =>
      simp only [runCallbacks, audio_callback, if_pos, ih,
        List.append_assoc, List.cons_append, List.nil_append,
        List.singleton_append]


/-- An event in the sequential trace of the Speaker worker thread. -/
inductive SpeakEvent where
  | dequeue (t : String)
  | playStart (t : String)
  | playEnd (t : String)
deriving Repr, DecidableEq

/-- Speaker.speak (speaker.py lines 67-75): empty text returns without
  enqueuing; non-empty text is appended to the FIFO speech_queue. -/
def speak (queue : List String) (text : String) : List String :=
  if text = "" then queue else queue ++ [text]

/-- Enqueue a sequence of texts through speak onto an empty queue. -/
def speakAll (texts : List String) : List String :=
  texts.foldl speak []

/-- The events of one iteration of Speaker.process_speech_queue
  (speaker.py lines 24-51) for a dequeued text: the item is dequeued;
  when it is non-empty, text_to_speech.convert followed by play(audio)
  runs to completion before the loop proceeds — modelled as a
  playStart/playEnd pair; an empty text is skipped. -/
def workerBlock (t : String) : List SpeakEvent :=
  if t = "" then [SpeakEvent.dequeue t]
  else [SpeakEvent.dequeue t, SpeakEvent.playStart t, SpeakEvent.playEnd t]

/-- The single worker thread of process_speech_queue draining the queue:
  items are handled strictly one after another in FIFO order. -/
def workerTrace : List String → List SpeakEvent
  | [] => []
  | t :: rest => workerBlock t ++ workerTrace rest

/-- The trace of enqueuing `texts` via speak and letting the worker
  drain the queue. -/
def speakerTrace (texts : List String) : List SpeakEvent :=
  workerTrace (speakAll texts)

/-- The sequence of playback invocations occurring in a trace. -/
def playbacks : List SpeakEvent → List String
  | [] => []
  | SpeakEvent.playStart t :: rest => t :: playbacks rest
  | SpeakEvent.dequeue _ :: rest => playbacks rest
  | SpeakEvent.playEnd _ :: rest => playbacks rest

/-- The effect of one event on the number of playbacks in flight. -/
def activeStep (a : Nat) : SpeakEvent → Nat
  | SpeakEvent.playStart _ => a + 1
  | SpeakEvent.playEnd _ => a - 1
  | SpeakEvent.dequeue _ => a

/-- Number of playbacks in flight after a trace segment. -/
def activeAfter (l : List SpeakEvent) : Nat :=
  l.foldl activeStep 0

theorem speakAll_eq_filter (texts : List String) :
    ∀ acc : List String,
      texts.foldl speak acc = acc ++ texts.filter (fun t => t ≠ "") := by
  induction texts with
  | nil => intro acc; simp
  | cons t rest ih =>
      intro acc
      simp only [List.foldl_cons, List.filter_cons]
      by_cases ht : t = ""
      · rw [show speak acc t = acc by rw [speak, if_pos ht]]
        rw [ih acc]
        simp [ht]
      · rw [show speak acc t = acc ++ [t] by rw [speak, if_neg ht]]
        rw [ih (acc ++ [t])]
        simp [ht, List.append_assoc]

theorem playbacks_workerTrace (q : List String) :
    playbacks (workerTrace q) = q.filter (fun t => t ≠ "") := by
  induction q with
  | nil => rfl
  | cons t rest ih =>
      by_cases ht : t = ""
      · subst ht
        simp only [workerTrace, workerBlock, if_pos rfl,
          List.singleton_append, playbacks, List.filter_cons]
        simpa using ih
      · simp only [workerTrace, workerBlock, if_neg ht,
          List.cons_append, List.nil_append, playbacks, List.filter_cons]
        simp [ht, ih]

theorem workerTrace_split (q : List String) :
    ∀ pre post : List SpeakEvent, workerTrace q = pre ++ post →
      activeAfter pre ≤ 1 ∧
      ∀ t rest, post = SpeakEvent.dequeue t :: rest → activeAfter pre = 0 := by
  induction q with
  | nil =>
      intro pre post h
      simp only [workerTrace] at h
      cases pre with
      | nil =>
          have hpost : post = [] := by simpa using h.symm
          subst hpost
          exact ⟨by simp [activeAfter], fun t rest hr => by simp at hr⟩
      | cons a l => simp at h
  | cons t rest ih =>
      intro pre post h
      simp only [workerTrace, workerBlock] at h
      by_cases ht : t = ""
      · rw [if_pos ht] at h
        simp only [List.singleton_append] at h
        cases pre with
        | nil =>
            exact ⟨by simp [activeAfter], fun u r hr => rfl⟩
        | cons a pre1 =>
            simp only [List.cons_append] at h
            injection h with h1 h2
            subst h1
            have hih := ih pre1 post h2
            have hact : activeAfter (SpeakEvent.dequeue t :: pre1) =
                activeAfter pre1 := rfl
            exact ⟨by rw [hact]; exact hih.1,
              fun u r hr => by rw [hact]; exact hih.2 u r hr⟩
      · rw [if_neg ht] at h
        simp only [List.cons_append, List.nil_append] at h
        cases pre with
        | nil =>
            exact ⟨by simp [activeAfter], fun u r hr => rfl⟩
        | cons a pre1 =>
            simp only [List.cons_append] at h
            injection h with h1 h2
            subst h1
            cases pre1 with
            | nil =>
                refine ⟨by simp [activeAfter, activeStep], ?_⟩
                intro u r hr
                rfl
            | cons b pre2 =>
                simp only [List.cons_append] at h2
                injection h2 with h3 h4
                subst h3
                cases pre2 with
                | nil =>
                    refine ⟨by simp [activeAfter, activeStep], ?_⟩
                    intro u r hr
                    simp only [List.nil_append] at h4
                    rw [← h4] at hr
                    exact absurd hr (by simp)
                | cons c pre3 =>
                    simp only [List.cons_append] at h4
                    injection h4 with h5 h6
                    subst h5
                    have hih := ih pre3 post h6
                    have hact : activeAfter (SpeakEvent.dequeue t ::
                        SpeakEvent.playStart t :: SpeakEvent.playEnd t ::
                        pre3) = activeAfter pre3 := rfl
                    exact ⟨by rw [hact]; exact hih.1,
                      fun u r hr => by rw [hact]; exact hih.2 u r hr⟩

/-- C5: enqueuing a sequence of texts on the Speaker results in playback
  invoked exactly once per non-empty text, in enqueue order, and at most
  one playback is in flight at any point of the worker trace; whenever
  the worker dequeues the next item, no playback is in flight (the
  previous item's playback has completed). -/
theorem speaker_serialized (texts : List String)
    (pre post : List SpeakEvent)
    (h : speakerTrace texts = pre ++ post) :
    playbacks (speakerTrace texts) = texts.filter (fun t => t ≠ "") ∧
    activeAfter pre ≤ 1 ∧
    (∀ t rest, post = SpeakEvent.dequeue t :: rest → activeAfter pre = 0) := by
  have hsplit := workerTrace_split (speakAll texts) pre post h
  refine ⟨?_, hsplit.1, hsplit.2⟩
  rw [speakerTrace, playbacks_workerTrace, speakAll, speakAll_eq_filter]
  simp only [List.nil_append, List.filter_filter, Bool.and_self]

/-- C5 witness: with texts ["a", "b", "c"] the playbacks are exactly
  ["a", "b", "c"] in order, and at the point just before the first
  dequeue no playback is in flight. -/
theorem speaker_serialized_witness :
    playbacks (speakerTrace ["a", "b", "c"]) = ["a", "b", "c"] ∧
    activeAfter ([] : List SpeakEvent) = 0 := by
  have h := speaker_serialized ["a", "b", "c"] []
    (speakerTrace ["a", "b", "c"]) rfl
  refine ⟨?_, rfl⟩
  rw [h.1]
  rfl

/-- A value produced by a crew invocation, as seen by the dynamic
  attribute accesses in ThoughtEngine.process_thought: either a plain
  string, or a mapping possibly holding an areas_needing_clarification
  entry (a list of strings). -/
inductive Dyn where
  | str (s : String)
  | dict (clarifications : Option (List String))
deriving Repr, DecidableEq

/-- The dictionary returned by ThoughtEngine._analyze_context
  (thinking.py lines 104-145): success with the crew payload under the
  analysis key, or — the whole body being wrapped in try/except — a
  status error dictionary carrying the exception text; it never
  raises. -/
inductive AnalyzeOut where
  | success (analysis : Dyn)
  | failure (error : String)
deriving Repr, DecidableEq

/-- ThoughtEngine._analyze_context as a function of the analysis crew
  outcome. -/
def analyze_context (crewRun : Except String Dyn) : AnalyzeOut :=
  match crewRun with
  | Except.ok r => AnalyzeOut.success r
  | Except.error e => AnalyzeOut.failure e

/-- The raw tavily response dictionary, modelled by its keys in
  iteration order: the only uses process_thought makes of it are
  iterating it (yielding its keys) and serialising it into prompt
  text. -/
abbrev TavilyResp := List String

/-- The dictionary returned by ThoughtEngine._search_internet
  (thinking.py lines 82-102): the tavily call is wrapped in try/except,
  so the result is a success dictionary holding the raw response under
  the results key, or a status error dictionary; it never raises. -/
inductive SearchOut where
  | success (raw : TavilyResp)
  | failure (error : String)
deriving Repr, DecidableEq

/-- ThoughtEngine._search_internet as a function of the tavily
  outcome. -/
def search_internet (backend : Except String TavilyResp) : SearchOut :=
  match backend with
  | Except.ok r => SearchOut.success r
  | Except.error e => SearchOut.failure e

/-- ThoughtEngine._generate_response (thinking.py lines 147-185): the
  crew invocation is wrapped in try/except, so a failure becomes the
  string "Error generating response: {e}"; it never raises. -/
def generate_response (crewRun : Except String String) : String :=
  match crewRun with
  | Except.ok r => r
  | Except.error e => "Error generating response: " ++ e

/-- A reference triple extracted from search results
  (thinking.py lines 216-225). -/
structure RefTriple where
  title : String
  url : String
  snippet : String
deriving Repr, DecidableEq

/-- Truthiness of the optional query argument: None and the empty
  string are falsy. -/
def truthyQuery : Option String → Bool
  | some q => q ≠ ""
  | none => false

/-- Truthiness of the areas_needing_clarification lookup: a missing key
  (None) and an empty list are falsy. -/
def truthyClar : Option (List String) → Bool
  | some (_ :: _) => true
  | some [] => false
  | none => false

/-- The expression analysis.get('analysis', {}).get(
  'areas_needing_clarification') (thinking.py line 204).  On the error
  dictionary the first get defaults to {} and the lookup yields None; on
  success with a mapping payload it yields the stored entry; on success
  with a string payload the attribute access raises AttributeError,
  which propagates to the outer handler. -/
def clarLookup : AnalyzeOut → Except String (Option (List String))
  | AnalyzeOut.failure _ => Except.ok none
  | AnalyzeOut.success (Dyn.dict c) => Except.ok c
  | AnalyzeOut.success (Dyn.str _) =>
      Except.error "AttributeError: str object has no attribute get"

/-- The expression analysis['analysis']['areas_needing_clarification'][0]
  (thinking.py line 205), evaluated only in states where the analysis
  succeeded with a mapping holding a non-empty entry; the remaining
  cases are unreachable there and default to the empty string. -/
def clarHead : AnalyzeOut → String
  | AnalyzeOut.success (Dyn.dict (some (x :: _))) => x
  | _ => ""

/-- The search string query or analysis[...][0] (thinking.py line 205):
  a truthy query short-circuits, otherwise the first flagged
  clarification is used. -/
def searchString (query : Option String) (analysis : AnalyzeOut) : String :=
  match query with
  | some q => if q = "" then clarHead analysis else q
  | none => clarHead analysis

/-- The reference extraction (thinking.py lines 216-225): it runs only
  when search_results exists with status success, and iterates
  search_results.get('results', []) — the raw tavily response
  dictionary, whose iteration yields its keys (strings); calling
  .get('title', '') on a string key raises AttributeError, which
  propagates to the outer handler; iterating an empty response yields no
  items, leaving the references list empty. -/
def extractReferences : Option SearchOut → Except String (List RefTriple)
  | some (SearchOut.success []) => Except.ok []
  | some (SearchOut.success (_ :: _)) =>
      Except.error "AttributeError: str object has no attribute get"
  | some (SearchOut.failure _) => Except.ok []
  | none => Except.ok []

/-- The body of the try block of ThoughtEngine.process_thought
  (thinking.py lines 198-227): analyze, decide on search (the or
  short-circuits: the clarification lookup runs only when the query is
  falsy), search, generate, extract references.  The context and
  discussion arguments only feed prompt text and are folded into the
  three backend outcomes. -/
def thoughtBody (query : Option String) (analysisCrew : Except String Dyn)
    (searchBackend : String → Except String TavilyResp)
    (responseCrew : Except String String) :
    Except String (String × List RefTriple) := do
  let analysis := analyze_context analysisCrew
  let doSearch ←
    if truthyQuery query then Except.ok true
    else (clarLookup analysis).map truthyClar
  let searchResults : Option SearchOut :=
    if doSearch then
      some (search_internet (searchBackend (searchString query analysis)))
    else none
  let response := generate_response responseCrew
  let references ← extractReferences searchResults
  return (response, references)

/-- ThoughtEngine.process_thought (thinking.py lines 187-230): the body
  runs inside try/except Exception, which converts any raised exception
  e into the pair ("Error in thought process: {e}", []); the function
  therefore always returns a pair. -/
def process_thought (query : Option String)
    (analysisCrew : Except String Dyn)
    (searchBackend : String → Except String TavilyResp)
    (responseCrew : Except String String) : String × List RefTriple :=
  match thoughtBody query analysisCrew searchBackend responseCrew with
  | Except.ok r => r
  | Except.error e => ("Error in thought process: " ++ e, [])

theorem append_left_length_ne_empty (a b : String) (ha : a.length ≠ 0) :
    a ++ b ≠ "" := by
  intro h
  have hl := congrArg String.length h
  rw [String.length_append] at hl
  have hz : ("" : String).length = 0 := rfl
  rw [hz] at hl
  omega

/-- C3: process_thought never raises — every exception escaping the try
  body is converted into an error pair with empty references — and on
  total failure (analysis, search and generation backends all raising)
  the result is exactly the generation error pair: a non-empty error
  description and the empty reference list. -/
theorem process_thought_no_raise (query : Option String)
    (ca : Except String Dyn) (ts : String → Except String TavilyResp)
    (cg : Except String String) :
    (∀ e, thoughtBody query ca ts cg = Except.error e →
        process_thought query ca ts cg =
          ("Error in thought process: " ++ e, [])) ∧
    (∀ ea es eg, ca = Except.error ea → (∀ s, ts s = Except.error es) →
        cg = Except.error eg →
        process_thought query ca ts cg =
          ("Error generating response: " ++ eg, []) ∧
        (process_thought query ca ts cg).1 ≠ "") := by
  constructor
  · intro e he
    rw [process_thought, he]
  · intro ea es eg hca hts hcg
    subst hca
    subst hcg
    have hbody : thoughtBody query (Except.error ea) ts (Except.error eg) =
        Except.ok ("Error generating response: " ++ eg, []) := by
      by_cases hq : truthyQuery query = true
      · simp [thoughtBody, analyze_context, hq, hts, Bind.bind,
          Except.bind, search_internet, extractReferences,
          generate_response, pure, Except.pure]
      · simp [thoughtBody, analyze_context, hq, clarLookup, Except.map,
          truthyClar, Bind.bind, Except.bind, extractReferences,
          generate_response, pure, Except.pure]
    rw [process_thought, hbody]
    refine ⟨rfl, ?_⟩
    show "Error generating response: " ++ eg ≠ ""
    exact append_left_length_ne_empty _ _ (by decide)

/-- C3 witness: with a query absent and all three backends failing,
  process_thought returns the generation error pair with a non-empty
  response text and no references. -/
theorem process_thought_no_raise_witness :
    process_thought none (Except.error "analysis down")
        (fun _ => Except.error "search down") (Except.error "llm down") =
      ("Error generating response: " ++ "llm down", []) ∧
    (process_thought none (Except.error "analysis down")
        (fun _ => Except.error "search down")
        (Except.error "llm down")).1 ≠ "" :=
  (process_thought_no_raise none (Except.error "analysis down")
      (fun _ => Except.error "search down") (Except.error "llm down")).2
    "analysis down" "search down" "llm down" rfl (fun _ => rfl) rfl

/-- C4 amended, witness: a cycle whose only dequeued item is a
  1024-sample chunk makes exactly one transcription call. -/
theorem transcriber_calls_spec_witness :
    transcribeCalls 16000 [QueueItem.chunk 1024, QueueItem.empty] = 1 :=
  (transcriber_calls_spec [QueueItem.chunk 1024, QueueItem.empty]).2.mpr
    ⟨QueueItem.chunk 1024, by decide, by decide⟩

/-- Python str.split() with no argument (helpers.py line 34): split on
  whitespace runs and discard empty fragments. -/
def splitWords (text : String) : List String :=
  (text.split Char.isWhitespace).filter (fun w => w ≠ "")

/-- Python " ".join(l) (helpers.py lines 42 and 50). -/
def sjoin : List String → String
  | [] => ""
  | [w] => w
  | w :: ws => w ++ " " ++ sjoin ws

/-- The running current_size of chunk_text: each word contributes
  len(word) + 1 (helpers.py line 40). -/
def sumSize (l : List String) : Nat :=
  (l.map (fun w => w.length + 1)).sum

/-- The word loop of helpers.chunk_text (helpers.py lines 39-51) over
  the remaining words, with accumulator current_chunk and its running
  current_size: when current_size + len(word) + 1 exceeds chunk_size the
  accumulated chunk is flushed (even when empty) and the word starts a
  fresh chunk; otherwise the word is appended.  After the loop a
  non-empty accumulator is flushed. -/
def chunkLoop (csize : Nat) : List String → List String → Nat →
    List (List String)
  | [], cur, _ => if cur.isEmpty then [] else [cur]
  | w :: ws, cur, size =>
      if csize < size + (w.length + 1) then
        cur :: chunkLoop csize ws [w] (w.length + 1)
      else
        chunkLoop csize ws (cur ++ [w]) (size + (w.length + 1))

/-- chunk_text's chunks as word lists, before joining. -/
def chunkWords (csize : Nat) (words : List String) : List (List String) :=
  chunkLoop csize words [] 0

/-- helpers.chunk_text (helpers.py lines 27-52). -/
def chunk_text (text : String) (chunk_size : Nat) : List String :=
  (chunkWords chunk_size (splitWords text)).map sjoin

theorem sumSize_append (a b : List String) :
    sumSize (a ++ b) = sumSize a + sumSize b := by
  simp [sumSize]

theorem sjoin_length (l : List String) (hl : l ≠ []) :
    (sjoin l).length + 1 = sumSize l := by
  induction l with
  | nil => exact absurd rfl hl
  | cons w ws ih =>
      cases ws with
      | nil => simp [sjoin, sumSize]
      | cons x xs =>
          have hne : x :: xs ≠ [] := by simp
          have h := ih hne
          show (w ++ " " ++ sjoin (x :: xs)).length + 1 =
            sumSize (w :: x :: xs)
          rw [String.length_append, String.length_append]
          have hsum : sumSize (w :: x :: xs) =
              (w.length + 1) + sumSize (x :: xs) := by
            simp [sumSize]
          rw [hsum, ← h]
          have hspace : (" " : String).length = 1 := rfl
          rw [hspace]
          omega

theorem chunkLoop_spec (csize : Nat) (ws : List String) :
    ∀ (cur : List String) (size : Nat),
      size = sumSize cur →
      (2 ≤ cur.length → size ≤ csize) →
      (∀ w ∈ cur, csize < w.length → cur = [w]) →
      (chunkLoop csize ws cur size).flatten = cur ++ ws ∧
      (∀ c ∈ chunkLoop csize ws cur size,
          2 ≤ c.length → sumSize c ≤ csize) ∧
      (∀ c ∈ chunkLoop csize ws cur size,
          ∀ w ∈ c, csize < w.length → c = [w]) := by
  induction ws with
  | nil =>
      intro cur size hsz hbound hlong
      by_cases hcur : cur.isEmpty
      · have hc : cur = [] := by
          cases cur with
          | nil => rfl
          | cons a l => simp [List.isEmpty] at hcur
        subst hc
        simp [chunkLoop]
      · have hstep : chunkLoop csize [] cur size = [cur] := by
          rw [chunkLoop, if_neg hcur]
        rw [hstep]
        refine ⟨by simp, ?_, ?_⟩
        · intro c hc h2
          rw [List.mem_singleton] at hc
          subst hc
          rw [← hsz]
          exact hbound h2
        · intro c hc w hw hlw
          rw [List.mem_singleton] at hc
          subst hc
          exact hlong w hw hlw
  | cons w ws ih =>
      intro cur size hsz hbound hlong
      by_cases hflush : csize < size + (w.length + 1)
      · have hstep : chunkLoop csize (w :: ws) cur size =
            cur :: chunkLoop csize ws [w] (w.length + 1) := by
          rw [chunkLoop, if_pos hflush]
        rw [hstep]
        have hrec := ih [w] (w.length + 1)
          (by simp [sumSize]) (by intro h2; simp at h2)
          (by intro u hu hlu; rw [List.mem_singleton] at hu; rw [hu])
        refine ⟨?_, ?_, ?_⟩
        · rw [List.flatten_cons, hrec.1]
          simp
        · intro c hc h2
          rcases List.mem_cons.mp hc with hc1 | hc2
          · subst hc1
            rw [← hsz]
            exact hbound h2
          · exact hrec.2.1 c hc2 h2
        · intro c hc u hu hlu
          rcases List.mem_cons.mp hc with hc1 | hc2
          · subst hc1
            exact hlong u hu hlu
          · exact hrec.2.2 c hc2 u hu hlu
      · have hstep : chunkLoop csize (w :: ws) cur size =
            chunkLoop csize ws (cur ++ [w]) (size + (w.length + 1)) := by
          rw [chunkLoop, if_neg hflush]
        rw [hstep]
        have hsz2 : size + (w.length + 1) = sumSize (cur ++ [w]) := by
          rw [sumSize_append, ← hsz]
          simp [sumSize]
        have hbound2 : 2 ≤ (cur ++ [w]).length →
            size + (w.length + 1) ≤ csize := by
          intro _
          omega
        have hlong2 : ∀ u ∈ cur ++ [w], csize < u.length →
            cur ++ [w] = [u] := by
          intro u hu hlu
          rcases List.mem_append.mp hu with hu1 | hu2
          · have hc := hlong u hu1 hlu
            have : size = u.length + 1 := by rw [hsz, hc]; simp [sumSize]
            omega
          · rw [List.mem_singleton] at hu2
            subst hu2
            omega
        have hrec := ih (cur ++ [w]) (size + (w.length + 1))
          hsz2 hbound2 hlong2
        refine ⟨?_, hrec.2.1, hrec.2.2⟩
        rw [hrec.1, List.append_assoc]
        rfl

/-- C10: for every input string and positive chunk_size, chunk_text is
  the space-join image of a partition of the whitespace-split words:
  concatenating the chunks' word lists in order yields exactly the
  input's word sequence, every chunk holding at least two words joins to
  a string of length at most chunk_size, and any word longer than
  chunk_size forms a chunk of its own. -/
theorem chunk_text_partition (text : String) (chunk_size : Nat)
    (hpos : 0 < chunk_size) :
    chunk_text text chunk_size =
      (chunkWords chunk_size (splitWords text)).map sjoin ∧
    (chunkWords chunk_size (splitWords text)).flatten = splitWords text ∧
    (∀ c ∈ chunkWords chunk_size (splitWords text),
        2 ≤ c.length → (sjoin c).length ≤ chunk_size) ∧
    (∀ c ∈ chunkWords chunk_size (splitWords text),
        ∀ w ∈ c, chunk_size < w.length → c = [w]) := by
  have h := chunkLoop_spec chunk_size (splitWords text) [] 0
    (by simp [sumSize]) (by intro h2; simp at h2) (by intro u hu; simp at hu)
  refine ⟨rfl, by simpa using h.1, ?_, h.2.2⟩
  intro c hc h2
  have hs := h.2.1 c hc h2
  have hne : c ≠ [] := by
    intro hceq
    rw [hceq] at h2
    simp at h2
  have hj := sjoin_length c hne
  omega

/-- C10 witness: on the text "ab cd ef" with chunk_size 5 the
  partition, length-bound and long-word properties are all established
  at a concrete instance. -/
theorem chunk_text_partition_witness :
    0 < 5 ∧ (chunkWords 5 (splitWords "ab cd ef")).flatten =
      splitWords "ab cd ef" :=
  ⟨by decide, (chunk_text_partition "ab cd ef" 5 (by decide)).2.1⟩
